import Mathlib

/-!
Verification of the yFinance FastAPI façade (src/main.py) against its
natural-language specification.  The Python source is shallowly embedded:
pandas DataFrames become explicit column/row structures, Python exceptions
become `Except`, HTTP responses become an explicit `Resp` type, and Python
dicts become association lists with dict-update semantics.
-/

namespace YFin

/-- A scalar cell value.  `nan` is the provider's missing-value sentinel
(pandas NaN); `null` is an explicit JSON null. -/
inductive Value where
  | str : String → Value
  | num : Int → Value
  | boolean : Bool → Value
  | nan : Value
  | null : Value
deriving Repr, DecidableEq

/-- A pandas DataFrame as returned by the provider for recommendation
history: a named index plus named data columns; each row carries its index
value and one cell per data column. -/
structure DataFrame where
  indexName : String
  columns : List String
  rows : List (Value × List Value)
deriving Repr, DecidableEq

/-- pandas `df.empty`: true when either axis has length zero. -/
def DataFrame.isEmptyDf (df : DataFrame) : Bool :=
  df.rows.isEmpty || df.columns.isEmpty

/-- A plain table (after `reset_index`): columns and rows, the leading
column being the former index. -/
structure Table where
  columns : List String
  rows : List (List Value)
deriving Repr, DecidableEq

/-- pandas `df.reset_index()`: the index becomes the leading column. -/
def DataFrame.resetIndex (df : DataFrame) : Table :=
  { columns := df.indexName :: df.columns
    rows := df.rows.map (fun r => r.1 :: r.2) }

/-- Python `str.split(sep)` for a single-character separator, on the
character list: splitting the empty string gives one empty group. -/
def splitOnChar (sep : Char) : List Char → List (List Char)
  | [] => [[]]
  | c :: rest =>
    if c = sep then [] :: splitOnChar sep rest
    else
      match splitOnChar sep rest with
      | [] => [[c]]
      | g :: gs => (c :: g) :: gs

def dropWhileSpaces : List Char → List Char
  | [] => []
  | c :: rest => if c.isWhitespace then dropWhileSpaces rest else c :: rest

/-- Python `str.strip()` on the character list: remove leading and trailing
whitespace. -/
def trimChars (cs : List Char) : List Char :=
  (dropWhileSpaces (dropWhileSpaces cs).reverse).reverse

/-- Python `str.strip()`. -/
def pyStrip (s : String) : String := ⟨trimChars s.data⟩

/-- Python `str.lower()` (ASCII, which covers every name the provider
emits). -/
def pyLower (s : String) : String := ⟨s.data.map Char.toLower⟩

/-- Python `str.replace(a, b)` for single-character pattern and
replacement. -/
def pyReplaceChar (a b : Char) (s : String) : String :=
  ⟨s.data.map (fun c => if c = a then b else c)⟩

/-- Whether the first list is a leading segment of the second. -/
def isLeadOf : List Char → List Char → Bool
  | [], _ => true
  | _ :: _, [] => false
  | p :: ps, c :: cs => p = c && isLeadOf ps cs

/-- Python substring test `pat in s` on character lists. -/
def containsChars (pat : List Char) : List Char → Bool
  | [] => isLeadOf pat []
  | c :: rest => isLeadOf pat (c :: rest) || containsChars pat rest

/-- Python `col.lower().replace(underscore, space).strip()` applied to a
column name (line 33 of src/main.py). -/
def pyNorm (col : String) : String :=
  pyStrip (pyReplaceChar '_' ' ' (pyLower col))

/-- Python substring test `pat in s`. -/
def containsSub (s pat : String) : Bool :=
  containsChars pat.data s.data

/-- The canonical key, if any, that `recs_to_records` assigns to a non-leading
source column (lines 33-39 of src/main.py): exact normalized match for
`firm`, substring containment for the two grade columns (the source computes
`lc` once; it is duplicated here, which is equivalent since all functions are
pure). -/
def colCanonical (col : String) : Option String :=
  if pyNorm col = "firm" then some "firm"
  else if containsSub (pyReplaceChar '\n' ' ' (pyNorm col)) "to grade" then some "to_grade"
  else if containsSub (pyReplaceChar '\n' ' ' (pyNorm col)) "from grade" then some "from_grade"
  else none

/-- The rename dictionary `col_map` of `recs_to_records`: the leading column
always maps to `date`; every later column with a canonical match maps to it. -/
def buildColMap (cols : List String) : List (String × String) :=
  match cols with
  | [] => []
  | idx :: rest =>
      (idx, "date") :: rest.filterMap (fun c => (colCanonical c).map (fun k => (c, k)))

/-- Python dict lookup on an association list built with `dictUpdate`
(keys are unique, so the first hit is the entry). -/
def dlookup {α : Type} (m : List (String × α)) (k : String) : Option α :=
  match m with
  | [] => none
  | p :: t => if p.1 = k then some p.2 else dlookup t k

/-- The keys of an association list, in order. -/
def keysOf {α : Type} (m : List (String × α)) : List String :=
  m.map Prod.fst

/-- Python dict update `m[k] = v`: replace in place if present, else append. -/
def dictUpdate {α : Type} (m : List (String × α)) (k : String) (v : α) :
    List (String × α) :=
  match m with
  | [] => [(k, v)]
  | p :: t => if p.1 = k then (k, v) :: t else p :: dictUpdate t k v

/-- `df.rename(columns=col_map)` on the column axis: a column in the map is
renamed, others keep their name.  `col_map` is built left to right, so a
later assignment to the same source name wins, as in a Python dict. -/
def dictOf (ps : List (String × String)) : List (String × String) :=
  ps.foldl (fun m p => dictUpdate m p.1 p.2) []

def renameCols (m : List (String × String)) (cols : List String) : List String :=
  cols.map (fun c => (dlookup m c).getD c)

/-- Index of the first column named `k`. -/
def colIdx (cols : List String) (k : String) : Option Nat :=
  match cols with
  | [] => none
  | c :: t => if c = k then some 0 else (colIdx t k).map (· + 1)

/-- The canonical output keys (`required` in src/main.py line 42). -/
def required : List String := ["date", "firm", "to_grade", "from_grade"]

/-- Comma-space join of a list of strings, as in rendering a Python list. -/
def joinComma : List String → String
  | [] => ""
  | [x] => x
  | x :: y :: rest => x ++ ", " ++ joinComma (y :: rest)

/-- Rendering of the f-string `Missing rec columns after rename: ` followed
by the missing list (src/main.py line 45). -/
def missingMsg (missing : List String) : String :=
  "Missing rec columns after rename: [" ++ joinComma missing ++ "]"

/-- One output record of `df[required].to_dict(orient=records)`: for each
required key, the cell of the first column bearing that (renamed) name. -/
def recordOf (newCols : List String) (row : List Value) : List (String × Value) :=
  required.filterMap (fun k => ((colIdx newCols k).bind (fun j => row[j]?)).map (fun v => (k, v)))

/-- The renamed column list of `recs_to_records` for a given DataFrame:
`df.reset_index()` followed by `df.rename(columns=col_map)`. -/
def newColsOf (df : DataFrame) : List String :=
  renameCols (dictOf (buildColMap df.resetIndex.columns)) df.resetIndex.columns

/-- The `missing` list of `recs_to_records` line 43: required canonical keys
absent from the renamed columns. -/
def missingOf (df : DataFrame) : List String :=
  required.filter (fun c => !((newColsOf df).contains c))

/-- Shallow embedding of `recs_to_records` (src/main.py lines 18-46).
`none` models the provider returning `None`; a raised `HTTPException`
becomes `Except.error` carrying its detail string. -/
def recsToRecords (recs : Option DataFrame) :
    Except String (List (List (String × Value))) :=
  match recs with
  | none => .ok []
  | some df =>
    if df.isEmptyDf then .ok []
    else if (missingOf df).isEmpty then
      .ok (df.resetIndex.rows.map (recordOf (newColsOf df)))
    else
      .error (missingMsg (missingOf df))

/-- An HTTP response: a 2xx body, or an error status with a detail string.
An `HTTPException` raised by a handler and an unhandled exception both end
as `httpError`. -/
inductive Resp (α : Type) where
  | ok : α → Resp α
  | httpError : Nat → String → Resp α
deriving Repr, DecidableEq

def Resp.mapBody {α β : Type} (f : α → β) : Resp α → Resp β
  | .ok a => .ok (f a)
  | .httpError s d => .httpError s d

/-- One entry of a batch response mapping: a successful payload, or the
per-symbol error descriptor (a dict with the single key `error`). -/
inductive BatchEntry (α : Type) where
  | payload : α → BatchEntry α
  | error : String → BatchEntry α
deriving Repr, DecidableEq

/-- Python `[s.strip() for s in symbols.split(comma) if s.strip()]`
(src/main.py lines 76 and 105): an entry is kept when its stripped form is
non-empty (truthy). -/
def parseSymbols (symbols : String) : List String :=
  (((splitOnChar ',' symbols.data).map (fun g => pyStrip ⟨g⟩)).filter
    (fun s => !s.isEmpty))

/-- One loop step of `get_quotes` (src/main.py lines 82-83): look the symbol
up in the `yf.Tickers(...).tickers` collection; a present ticker yields its
`info` (which may raise, modelled as `Except.error`), a missing ticker
yields the fixed error descriptor. -/
def quoteEntry {I : Type} (tickers : String → Option (Except String I))
    (s : String) : Except String (BatchEntry I) :=
  match tickers s with
  | some r => r.map .payload
  | none => .ok (.error "Ticker not found")

/-- The entry `get_quotes` stores for a symbol when its lookup does not
raise: payload for a present ticker whose `info` succeeded, the fixed
descriptor for an absent ticker.  (The middle branch is never the stored
value: a raised `info` aborts the whole loop instead; the lemmas below only
use this function under a no-raise hypothesis.) -/
def qEntry {I : Type} (tickers : String → Option (Except String I))
    (s : String) : BatchEntry I :=
  match tickers s with
  | some (.ok i) => .payload i
  | some (.error e) => .error e
  | none => .error "Ticker not found"

/-- The result-building loop of `get_quotes`: no try/except surrounds it, so
an exception raised by one symbol's `info` aborts the remaining iterations. -/
def quotesFold {I : Type} (tickers : String → Option (Except String I))
    (syms : List String) : Except String (List (String × BatchEntry I)) :=
  syms.foldlM (fun acc s => (quoteEntry tickers s).map (dictUpdate acc s)) []

/-- Shallow embedding of `get_quotes` (src/main.py lines 70-84).  An
exception escaping the handler is answered by the framework with a plain
500. -/
def getQuotes {I : Type} (tickers : String → Option (Except String I))
    (symbols : String) : Resp (List (String × BatchEntry I)) :=
  let syms := parseSymbols symbols
  if syms.isEmpty then .httpError 400 "No symbols provided"
  else
    match quotesFold tickers syms with
    | .ok m => .ok m
    | .error _ => .httpError 500 "Internal Server Error"

/-- One loop step of `get_recommendations` (src/main.py lines 110-116):
fetch the history, normalize it; any raised exception (from the fetch or
from `recs_to_records`) is caught and becomes the symbol's error
descriptor. -/
def recEntry (recsOf : String → Except String (Option DataFrame))
    (s : String) : BatchEntry (List (List (String × Value))) :=
  match recsOf s with
  | .error e => .error e
  | .ok recs =>
    match recsToRecords recs with
    | .ok rows => .payload rows
    | .error msg => .error msg

/-- Shallow embedding of `get_recommendations` (src/main.py lines 99-117). -/
def getRecommendations (recsOf : String → Except String (Option DataFrame))
    (symbols : String) : Resp (List (String × BatchEntry (List (List (String × Value))))) :=
  let syms := parseSymbols symbols
  if syms.isEmpty then .httpError 400 "No symbols provided"
  else .ok (syms.foldl (fun acc s => dictUpdate acc s (recEntry recsOf s)) [])

/-- Shallow embedding of `get_quote` (src/main.py lines 61-69). -/
def getQuote {I : Type} (infoOf : String → Except String I) (symbol : String) :
    Resp I :=
  match infoOf symbol with
  | .ok i => .ok i
  | .error e => .httpError 500 e

/-- Shallow embedding of `get_recommendation` (src/main.py lines 86-97). -/
def getRecommendation (recsOf : String → Except String (Option DataFrame))
    (symbol : String) : Resp (List (List (String × Value))) :=
  match recsOf symbol with
  | .error e => .httpError 500 e
  | .ok recs =>
    match recsToRecords recs with
    | .ok rows => .ok rows
    | .error msg => .httpError 500 msg

/-- The rejection produced by the API-key dependency, if any.  `header` is
the request's X-API-KEY header (`none` when absent: `APIKeyHeader` then
rejects by itself with 403 Not authenticated); otherwise `verify_api_key`
(src/main.py lines 13-15) compares the header against the `API_KEY`
environment value, which is `none` when the variable is unset. -/
def verifyApiKey (serverKey header : Option String) : Option (Nat × String) :=
  match header with
  | none => some (403, "Not authenticated")
  | some k => if serverKey = some k then none else some (403, "Invalid or missing API Key")

/-- The detail string of the 403 rejection for a given header. -/
def authDetail (header : Option String) : String :=
  match header with
  | none => "Not authenticated"
  | some _ => "Invalid or missing API Key"

/-- The external yfinance provider, opaque to the service: the bulk tickers
collection used by `/quotes`, per-symbol `info`, and per-symbol
`recommendations`.  Fallible calls return `Except.error` for a raised
exception; `recommendations` may also return `None`. -/
structure Provider (I : Type) where
  tickersOf : String → Option (Except String I)
  infoOf : String → Except String I
  recsOf : String → Except String (Option DataFrame)

/-- The routes of the application. -/
inductive Route where
  | root
  | quote (symbol : String)
  | quotes (symbols : String)
  | recommendation (symbol : String)
  | recommendations (symbols : String)
deriving Repr, DecidableEq

/-- Response bodies across the routes. -/
inductive Body (I : Type) where
  | rootStatus : Body I
  | info : I → Body I
  | records : List (List (String × Value)) → Body I
  | quoteMap : List (String × BatchEntry I) → Body I
  | recMap : List (String × BatchEntry (List (List (String × Value)))) → Body I
deriving Repr, DecidableEq

/-- Full request handling: every route runs the API-key dependency first
(each route is declared with `dependencies=[Depends(verify_api_key)]`);
only when it passes does the endpoint body run. -/
def handle {I : Type} (p : Provider I) (serverKey header : Option String) :
    Route → Resp (Body I)
  | r =>
    match verifyApiKey serverKey header with
    | some (st, d) => .httpError st d
    | none =>
      match r with
      | .root => .ok .rootStatus
      | .quote s => (getQuote p.infoOf s).mapBody .info
      | .quotes q => (getQuotes p.tickersOf q).mapBody .quoteMap
      | .recommendation s => (getRecommendation p.recsOf s).mapBody .records
      | .recommendations q => (getRecommendations p.recsOf q).mapBody .recMap

/-! ### Concrete fixtures for witnesses and counterexamples -/

/-- A tickers collection where symbol A is present with a working `info`,
symbol B is present but its `info` raises, others are absent. -/
def exTickersRaise : String → Option (Except String Nat) :=
  fun s => if s = "A" then some (.ok 7) else if s = "B" then some (.error "boom") else none

/-- A recommendations fetch where symbol B raises and others return `None`. -/
def exRecsRaise : String → Except String (Option DataFrame) :=
  fun s => if s = "B" then .error "boom" else .ok none

/-- A tickers collection where only symbol A is present, with working `info`. -/
def exTickersA : String → Option (Except String Nat) :=
  fun s => if s = "A" then some (.ok 1) else none

/-- A one-row history whose middle column name only contains the canonical
grade name rather than equalling it. -/
def exDfContains : DataFrame :=
  { indexName := "Date"
    columns := ["Firm", "Analyst To Grade", "From Grade"]
    rows := [(Value.num 0, [Value.str "MS", Value.str "Buy", Value.str "Hold"])] }

/-- A one-row history whose grade cell is the provider's NaN sentinel. -/
def exDfNan : DataFrame :=
  { indexName := "Date"
    columns := ["Firm", "To Grade", "From Grade"]
    rows := [(Value.num 0, [Value.str "MS", Value.nan, Value.str "Hold"])] }

/-- A one-row history lacking both grade columns. -/
def exDfMissing : DataFrame :=
  { indexName := "Date"
    columns := ["Firm", "Action"]
    rows := [(Value.num 0, [Value.str "MS", Value.str "up"])] }

/-- A two-row history with cleanly reconcilable columns plus an extra one. -/
def exDfFull : DataFrame :=
  { indexName := "Date"
    columns := ["Firm", "To Grade", "From Grade", "Action"]
    rows := [(Value.num 0, [Value.str "MS", Value.str "Buy", Value.str "Hold", Value.str "up"]),
             (Value.num 1, [Value.str "GS", Value.str "Sell", Value.str "Buy", Value.str "down"])] }

/-- A history with reconcilable column names and no rows. -/
def exDfHeader : DataFrame :=
  { indexName := "Date"
    columns := ["Firm", "To Grade", "From Grade"]
    rows := [] }

/-- A provider that never raises and holds no tickers. -/
def exProv : Provider Nat :=
  { tickersOf := fun _ => none
    infoOf := fun _ => .ok 0
    recsOf := fun _ => .ok none }

/-- A recommendations fetch that raises for symbol B only. -/
def exRecsDown : String → Except String (Option DataFrame) :=
  fun s => if s = "B" then .error "down" else .ok none

/-- A recommendations fetch returning the column-deficient history for every
symbol. -/
def exRecsMissing : String → Except String (Option DataFrame) :=
  fun _ => .ok (some exDfMissing)

/-! ### Dictionary lemmas -/

theorem dlookup_dictUpdate {α : Type} (m : List (String × α)) (k q : String) (v : α) :
    dlookup (dictUpdate m k v) q = if q = k then some v else dlookup m q := by
  induction m with
  | nil =>
    by_cases h : q = k
    · simp [dictUpdate, dlookup, h]
    · simp [dictUpdate, dlookup, h, Ne.symm h]
  | cons p t ih =>
    by_cases hpk : p.1 = k
    · by_cases hq : q = k
      · simp [dictUpdate, dlookup, hpk, hq]
      · simp [dictUpdate, dlookup, hpk, hq, Ne.symm hq]
    · by_cases hpq : p.1 = q
      · have hqk : ¬(q = k) := fun hh => hpk (hpq.trans hh)
        simp [dictUpdate, dlookup, hpk, hpq, hqk]
      · simp [dictUpdate, dlookup, hpk, hpq, ih]

theorem mem_keysOf_dictUpdate {α : Type} (m : List (String × α)) (k q : String) (v : α) :
    q ∈ keysOf (dictUpdate m k v) ↔ q = k ∨ q ∈ keysOf m := by
  induction m with
  | nil => simp [dictUpdate, keysOf]
  | cons p t ih =>
    by_cases hpk : p.1 = k
    · simp [dictUpdate, keysOf, hpk]
    · simp only [dictUpdate, if_neg hpk, keysOf, List.map_cons, List.mem_cons]
      rw [show (dictUpdate t k v).map Prod.fst = keysOf (dictUpdate t k v) from rfl, ih]
      simp [keysOf]
      tauto

theorem nodup_keysOf_dictUpdate {α : Type} (m : List (String × α)) (k : String) (v : α)
    (h : (keysOf m).Nodup) : (keysOf (dictUpdate m k v)).Nodup := by
  induction m with
  | nil => simp [dictUpdate, keysOf]
  | cons p t ih =>
    simp only [keysOf, List.map_cons, List.nodup_cons] at h
    by_cases hpk : p.1 = k
    · simp only [dictUpdate, if_pos hpk, keysOf, List.map_cons, List.nodup_cons]
      exact ⟨hpk ▸ h.1, h.2⟩
    · simp only [dictUpdate, if_neg hpk, keysOf, List.map_cons, List.nodup_cons]
      refine ⟨?_, ih h.2⟩
      intro hmem
      rcases (mem_keysOf_dictUpdate t k p.1 v).mp hmem with h1 | h1
      · exact hpk h1
      · exact h.1 h1

theorem dlookup_eq_none_of_not_mem {α : Type} (m : List (String × α)) (q : String)
    (h : q ∉ keysOf m) : dlookup m q = none := by
  induction m with
  | nil => rfl
  | cons p t ih =>
    simp only [keysOf, List.map_cons, List.mem_cons] at h
    push_neg at h
    simp only [dlookup, if_neg (fun hh : p.1 = q => h.1 hh.symm)]
    exact ih (by simpa [keysOf] using h.2)

theorem foldl_dictUpdate_dlookup {β : Type} (f : String → β) :
    ∀ (syms : List String) (acc : List (String × β)) (q : String),
      dlookup (syms.foldl (fun a s => dictUpdate a s (f s)) acc) q
        = if q ∈ syms then some (f q) else dlookup acc q := by
  intro syms
  induction syms with
  | nil => intro acc q; simp
  | cons x l ih =>
    intro acc q
    rw [List.foldl_cons, ih]
    by_cases hql : q ∈ l
    · simp [hql]
    · rw [dlookup_dictUpdate]
      by_cases hqx : q = x
      · subst hqx; simp [hql]
      · simp [hql, hqx]

theorem mem_keysOf_foldl {β : Type} (f : String → β) :
    ∀ (syms : List String) (acc : List (String × β)) (q : String),
      q ∈ keysOf (syms.foldl (fun a s => dictUpdate a s (f s)) acc)
        ↔ q ∈ syms ∨ q ∈ keysOf acc := by
  intro syms
  induction syms with
  | nil => intro acc q; simp
  | cons x l ih =>
    intro acc q
    rw [List.foldl_cons, ih, mem_keysOf_dictUpdate]
    simp
    tauto

theorem nodup_keysOf_foldl {β : Type} (f : String → β) :
    ∀ (syms : List String) (acc : List (String × β)),
      (keysOf acc).Nodup →
      (keysOf (syms.foldl (fun a s => dictUpdate a s (f s)) acc)).Nodup := by
  intro syms
  induction syms with
  | nil => intro acc h; exact h
  | cons x l ih =>
    intro acc h
    rw [List.foldl_cons]
    exact ih _ (nodup_keysOf_dictUpdate _ _ _ h)

/-! ### Batch endpoint lemmas -/

theorem parseSymbols_ne_nil_isEmpty {symbols : String} (h : parseSymbols symbols ≠ []) :
    (parseSymbols symbols).isEmpty = false := by
  cases hp : parseSymbols symbols with
  | nil => exact absurd hp h
  | cons a l => rfl

theorem getRecommendations_char (recsOf : String → Except String (Option DataFrame))
    (symbols : String) (h : parseSymbols symbols ≠ []) :
    getRecommendations recsOf symbols
      = .ok ((parseSymbols symbols).foldl
          (fun a s => dictUpdate a s (recEntry recsOf s)) []) := by
  unfold getRecommendations
  simp [parseSymbols_ne_nil_isEmpty h]

theorem quoteEntry_ok {I : Type} (tickers : String → Option (Except String I)) (s : String)
    (h : ∀ e, tickers s ≠ some (.error e)) :
    quoteEntry tickers s = .ok (qEntry tickers s) := by
  unfold quoteEntry qEntry
  cases hxt : tickers s with
  | none => rfl
  | some r =>
    cases r with
    | ok i => rfl
    | error e => exact absurd hxt (h e)

theorem quotesFold_eq {I : Type} (tickers : String → Option (Except String I)) :
    ∀ (syms : List String) (acc : List (String × BatchEntry I)),
      (∀ s ∈ syms, ∀ e, tickers s ≠ some (.error e)) →
      List.foldlM (fun a s => (quoteEntry tickers s).map (dictUpdate a s)) acc syms
        = .ok (syms.foldl (fun a s => dictUpdate a s (qEntry tickers s)) acc) := by
  intro syms
  induction syms with
  | nil => intro acc _; rfl
  | cons x l ih =>
    intro acc H
    rw [List.foldlM_cons, quoteEntry_ok tickers x (H x (List.mem_cons_self x l))]
    show List.foldlM _ (dictUpdate acc x (qEntry tickers x)) l = _
    rw [List.foldl_cons]
    exact ih _ (fun s hs e => H s (List.mem_cons_of_mem x hs) e)

theorem quotesFold_ok_no_raise {I : Type} (tickers : String → Option (Except String I)) :
    ∀ (syms : List String) (acc m : List (String × BatchEntry I)),
      List.foldlM (fun a s => (quoteEntry tickers s).map (dictUpdate a s)) acc syms = .ok m →
      ∀ s ∈ syms, ∀ e, tickers s ≠ some (.error e) := by
  intro syms
  induction syms with
  | nil => intro acc m _ s hs; simp at hs
  | cons x l ih =>
    intro acc m hm s hs e hte
    rw [List.foldlM_cons] at hm
    cases hq : quoteEntry tickers x with
    | error e2 =>
      rw [hq] at hm
      exact absurd hm (by simp [Except.map, Bind.bind, Except.bind])
    | ok b =>
      rw [hq] at hm
      rcases List.mem_cons.mp hs with rfl | hsl
      · rw [quoteEntry, hte] at hq
        exact absurd hq (by simp [Except.map])
      · exact ih _ m (by simpa [Except.map, Bind.bind, Except.bind] using hm) s hsl e hte

theorem getQuotes_char {I : Type} (tickers : String → Option (Except String I))
    (symbols : String) (h : parseSymbols symbols ≠ [])
    (H : ∀ s ∈ parseSymbols symbols, ∀ e, tickers s ≠ some (.error e)) :
    getQuotes tickers symbols
      = .ok ((parseSymbols symbols).foldl
          (fun a s => dictUpdate a s (qEntry tickers s)) []) := by
  unfold getQuotes quotesFold
  simp only [parseSymbols_ne_nil_isEmpty h, Bool.false_eq_true, if_false]
  rw [quotesFold_eq tickers _ [] H]

theorem getQuotes_ok_inv {I : Type} (tickers : String → Option (Except String I))
    (symbols : String) (m : List (String × BatchEntry I))
    (h : getQuotes tickers symbols = .ok m) :
    parseSymbols symbols ≠ [] ∧
    (∀ s ∈ parseSymbols symbols, ∀ e, tickers s ≠ some (.error e)) ∧
    m = (parseSymbols symbols).foldl (fun a s => dictUpdate a s (qEntry tickers s)) [] := by
  unfold getQuotes at h
  by_cases hne : (parseSymbols symbols).isEmpty
  · rw [if_pos hne] at h
    exact absurd h (by simp)
  · rw [if_neg hne] at h
    have hnil : parseSymbols symbols ≠ [] := by
      intro hh; rw [hh] at hne; exact hne rfl
    cases hq : quotesFold tickers (parseSymbols symbols) with
    | error e => rw [hq] at h; exact absurd h (by simp)
    | ok m2 =>
      have H : ∀ s ∈ parseSymbols symbols, ∀ e, tickers s ≠ some (.error e) :=
        quotesFold_ok_no_raise tickers _ [] m2 hq
      rw [hq] at h
      have hm2 : m2 = m := by
        cases h; rfl
      refine ⟨hnil, H, ?_⟩
      rw [← hm2]
      have := quotesFold_eq tickers (parseSymbols symbols) [] H
      rw [show quotesFold tickers (parseSymbols symbols)
            = List.foldlM (fun a s => (quoteEntry tickers s).map (dictUpdate a s)) []
                (parseSymbols symbols) from rfl, this] at hq
      cases hq
      rfl

/-! ### Column index and record lemmas -/

theorem mem_of_getElemOpt {α : Type} (l : List α) (i : Nat) (a : α) (h : l[i]? = some a) :
    a ∈ l := by
  obtain ⟨hl, he⟩ := List.getElem?_eq_some.mp h
  exact he ▸ List.getElem_mem hl

theorem colIdx_of_mem (cols : List String) (k : String) (h : k ∈ cols) :
    ∃ j, colIdx cols k = some j := by
  induction cols with
  | nil => simp at h
  | cons c t ih =>
    by_cases hc : c = k
    · exact ⟨0, by simp [colIdx, hc]⟩
    · have hkt : k ∈ t := by
        rcases List.mem_cons.mp h with h1 | h1
        · exact absurd h1.symm hc
        · exact h1
      rcases ih hkt with ⟨j, hj⟩
      exact ⟨j + 1, by simp [colIdx, hc, hj]⟩

theorem colIdx_lt (cols : List String) (k : String) (j : Nat) (h : colIdx cols k = some j) :
    j < cols.length := by
  induction cols generalizing j with
  | nil => simp [colIdx] at h
  | cons c t ih =>
    by_cases hc : c = k
    · simp [colIdx, hc] at h
      simp [← h]
    · simp only [colIdx, if_neg hc] at h
      cases hct : colIdx t k with
      | none => rw [hct] at h; simp at h
      | some j1 =>
        rw [hct] at h
        simp at h
        have := ih j1 hct
        simp [List.length_cons, ← h]
        omega

theorem colIdx_get (cols : List String) (k : String) (j : Nat) (h : colIdx cols k = some j) :
    cols[j]? = some k := by
  induction cols generalizing j with
  | nil => simp [colIdx] at h
  | cons c t ih =>
    by_cases hc : c = k
    · simp [colIdx, hc] at h
      simp [← h, hc]
    · simp only [colIdx, if_neg hc] at h
      cases hct : colIdx t k with
      | none => rw [hct] at h; simp at h
      | some j1 =>
        rw [hct] at h
        simp at h
        rw [← h, List.getElem?_cons_succ]
        exact ih j1 hct

theorem colIdx_of_nodup (cols : List String) (hnd : cols.Nodup) (j : Nat) (k : String)
    (h : cols[j]? = some k) : colIdx cols k = some j := by
  induction cols generalizing j with
  | nil => simp at h
  | cons c t ih =>
    rcases List.nodup_cons.mp hnd with ⟨hc, hndt⟩
    cases j with
    | zero =>
      simp at h
      simp [colIdx, h]
    | succ j1 =>
      rw [List.getElem?_cons_succ] at h
      have hkt : k ∈ t := mem_of_getElemOpt t j1 k h
      have hck : ¬ c = k := fun hh => hc (hh ▸ hkt)
      simp [colIdx, hck, ih hndt j1 h]

theorem filterMap_pair_keys {β : Type} (sel : String → Option β) :
    ∀ (ks : List String), (∀ k ∈ ks, ∃ v, sel k = some v) →
      (ks.filterMap (fun k => (sel k).map (fun v => (k, v)))).map Prod.fst = ks := by
  intro ks
  induction ks with
  | nil => intro _; rfl
  | cons k t ih =>
    intro h
    obtain ⟨v, hv⟩ := h k (List.mem_cons_self k t)
    rw [List.filterMap_cons]
    simp only [hv, Option.map_some', List.map_cons]
    rw [ih (fun k2 hk2 => h k2 (List.mem_cons_of_mem k hk2))]

theorem recordOf_keys (newCols : List String) (row : List Value)
    (h : ∀ k ∈ required, ∃ v, (colIdx newCols k).bind (fun j => row[j]?) = some v) :
    (recordOf newCols row).map Prod.fst = required :=
  filterMap_pair_keys (fun k => (colIdx newCols k).bind (fun j => row[j]?)) required h

theorem mem_recordOf (newCols : List String) (row : List Value) (k : String) (v : Value)
    (h : (k, v) ∈ recordOf newCols row) :
    k ∈ required ∧ ∃ j, colIdx newCols k = some j ∧ row[j]? = some v := by
  unfold recordOf at h
  rw [List.mem_filterMap] at h
  obtain ⟨k2, hk2, he⟩ := h
  cases hs : (colIdx newCols k2).bind (fun j => row[j]?) with
  | none => rw [hs] at he; simp at he
  | some v2 =>
    rw [hs] at he
    simp at he
    obtain ⟨hk, hv⟩ := he
    rw [← hk, ← hv]
    refine ⟨hk2, ?_⟩
    cases hci : colIdx newCols k2 with
    | none => rw [hci] at hs; simp at hs
    | some j =>
      rw [hci] at hs
      simp at hs
      exact ⟨j, rfl, hs⟩

theorem recordOf_mem_of (newCols : List String) (row : List Value) (k : String) (v : Value)
    (j : Nat) (hk : k ∈ required) (hj : colIdx newCols k = some j) (hv : row[j]? = some v) :
    (k, v) ∈ recordOf newCols row := by
  unfold recordOf
  rw [List.mem_filterMap]
  exact ⟨k, hk, by simp [hj, hv]⟩

theorem sel_total (newCols : List String) (row : List Value)
    (hlen : row.length = newCols.length) (k : String) (hk : k ∈ newCols) :
    ∃ v, (colIdx newCols k).bind (fun j => row[j]?) = some v := by
  obtain ⟨j, hj⟩ := colIdx_of_mem newCols k hk
  have hjlt : j < row.length := by
    have := colIdx_lt newCols k j hj
    omega
  exact ⟨row[j], by simp [hj, List.getElem?_eq_getElem hjlt]⟩

/-! ### Normalizer characterization lemmas -/

theorem recsToRecords_ok_char (df : DataFrame)
    (hne : df.isEmptyDf = false) (hmiss : missingOf df = []) :
    recsToRecords (some df) = .ok (df.resetIndex.rows.map (recordOf (newColsOf df))) := by
  simp [recsToRecords, hne, hmiss]

theorem recsToRecords_error_char (df : DataFrame)
    (hne : df.isEmptyDf = false) (hmiss : missingOf df ≠ []) :
    recsToRecords (some df) = .error (missingMsg (missingOf df)) := by
  have h2 : (missingOf df).isEmpty = false := by
    cases hm : missingOf df with
    | nil => exact absurd hm hmiss
    | cons a l => rfl
  simp [recsToRecords, hne, h2]

theorem required_mem_of_missing_nil (df : DataFrame) (h : missingOf df = []) :
    ∀ k ∈ required, k ∈ newColsOf df := by
  intro k hk
  unfold missingOf at h
  rw [List.filter_eq_nil_iff] at h
  have := h k hk
  simpa using this

theorem newColsOf_length (df : DataFrame) :
    (newColsOf df).length = df.columns.length + 1 := by
  simp [newColsOf, renameCols, DataFrame.resetIndex]

theorem columns_ne_nil_of_missing_nil (df : DataFrame) (h : missingOf df = []) :
    df.columns ≠ [] := by
  intro hc
  have hf := required_mem_of_missing_nil df h "firm" (by simp [required])
  obtain ⟨iN, cols, rows⟩ := df
  simp only at hc
  subst hc
  simp [newColsOf, DataFrame.resetIndex, renameCols, buildColMap, dictOf, dictUpdate,
    dlookup] at hf

theorem isEmptyDf_false_of (df : DataFrame) (hr : df.rows ≠ []) (h : missingOf df = []) :
    df.isEmptyDf = false := by
  have hc := columns_ne_nil_of_missing_nil df h
  unfold DataFrame.isEmptyDf
  cases hrows : df.rows with
  | nil => exact absurd hrows hr
  | cons a l =>
    cases hcols : df.columns with
    | nil => exact absurd hcols hc
    | cons b m => simp

theorem resetIndex_rows_length (df : DataFrame) :
    df.resetIndex.rows.length = df.rows.length := by
  simp [DataFrame.resetIndex]

theorem resetIndex_row_length (df : DataFrame)
    (hwf : ∀ r ∈ df.rows, r.2.length = df.columns.length) :
    ∀ row ∈ df.resetIndex.rows, row.length = (newColsOf df).length := by
  intro row hrow
  simp only [DataFrame.resetIndex, List.mem_map] at hrow
  obtain ⟨x, hx, hEq⟩ := hrow
  rw [← hEq]
  simp [newColsOf_length, hwf x hx]

/-! ### Column reconciliation lemmas -/

theorem foldl_pairs_dlookup :
    ∀ (ps : List (String × String)) (acc : List (String × String)) (q : String),
      (keysOf ps).Nodup →
      dlookup (ps.foldl (fun m p => dictUpdate m p.1 p.2) acc) q
        = if q ∈ keysOf ps then dlookup ps q else dlookup acc q := by
  intro ps
  induction ps with
  | nil => intro acc q _; simp [keysOf, dlookup]
  | cons p t ih =>
    intro acc q hnd
    have hnd2 : (p.1 :: keysOf t).Nodup := by simpa [keysOf] using hnd
    rcases List.nodup_cons.mp hnd2 with ⟨hp, hndt⟩
    rw [List.foldl_cons, ih _ _ hndt]
    by_cases hqt : q ∈ keysOf t
    · have hqt2 : q ∈ List.map Prod.fst t := by simpa [keysOf] using hqt
      have hqp : ¬ p.1 = q := fun hh => hp (hh ▸ hqt)
      simp only [keysOf, List.map_cons]
      rw [if_pos hqt2, if_pos (List.mem_cons_of_mem p.1 hqt2)]
      simp [dlookup, hqp]
    · rw [dlookup_dictUpdate]
      have hqt2 : q ∉ List.map Prod.fst t := by simpa [keysOf] using hqt
      by_cases hqp : q = p.1
      · subst hqp
        simp only [keysOf, List.map_cons]
        rw [if_neg hqt2, if_pos (List.mem_cons_self _ _)]
        simp [dlookup]
      · have h2 : q ∉ p.1 :: List.map Prod.fst t := by
          intro hm
          rcases List.mem_cons.mp hm with h3 | h3
          · exact hqp h3
          · exact hqt2 h3
        simp only [keysOf, List.map_cons]
        rw [if_neg hqt2, if_neg h2, if_neg hqp]

theorem dictOf_dlookup (ps : List (String × String)) (hnd : (keysOf ps).Nodup) (q : String) :
    dlookup (dictOf ps) q = dlookup ps q := by
  unfold dictOf
  rw [foldl_pairs_dlookup ps [] q hnd]
  by_cases h : q ∈ keysOf ps
  · simp [h]
  · simp [h, dlookup, dlookup_eq_none_of_not_mem ps q h]

theorem keysOf_filterMap_sublist (g : String → Option String) :
    ∀ (l : List String),
      List.Sublist (keysOf (l.filterMap (fun c => (g c).map (fun k => (c, k))))) l := by
  intro l
  induction l with
  | nil => simp [keysOf]
  | cons c t ih =>
    rw [List.filterMap_cons]
    cases hg : g c with
    | none => simpa using ih.cons c
    | some k =>
      simp only [Option.map_some']
      rw [show keysOf ((c, k) :: t.filterMap (fun c => (g c).map (fun k => (c, k))))
            = c :: keysOf (t.filterMap (fun c => (g c).map (fun k => (c, k)))) from rfl]
      exact ih.cons₂ c

theorem dlookup_filterMap_pair (g : String → Option String) :
    ∀ (l : List String), l.Nodup → ∀ c ∈ l,
      dlookup (l.filterMap (fun x => (g x).map (fun k => (x, k)))) c = g c := by
  intro l
  induction l with
  | nil => intro _ c hc; simp at hc
  | cons x t ih =>
    intro hnd c hc
    rcases List.nodup_cons.mp hnd with ⟨hx, hndt⟩
    rw [List.filterMap_cons]
    cases hg : g x with
    | none =>
      rcases List.mem_cons.mp hc with rfl | hct
      · rw [hg]
        exact dlookup_eq_none_of_not_mem _ _
          (fun hmem => hx ((keysOf_filterMap_sublist g t).mem hmem))
      · exact ih hndt c hct
    | some k =>
      rcases List.mem_cons.mp hc with rfl | hct
      · simp [dlookup, hg]
      · have hxc : ¬ x = c := fun hh => hx (hh ▸ hct)
        simp only [Option.map_some', dlookup, if_neg hxc]
        exact ih hndt c hct

theorem nodup_keysOf_buildColMap (c0 : String) (rest : List String)
    (hnd : (c0 :: rest).Nodup) : (keysOf (buildColMap (c0 :: rest))).Nodup := by
  rcases List.nodup_cons.mp hnd with ⟨h0, hndr⟩
  rw [show keysOf (buildColMap (c0 :: rest))
        = c0 :: keysOf (rest.filterMap (fun c => (colCanonical c).map (fun k => (c, k))))
      from rfl]
  rw [List.nodup_cons]
  refine ⟨fun hmem => h0 ((keysOf_filterMap_sublist _ rest).mem hmem), ?_⟩
  exact hndr.sublist (keysOf_filterMap_sublist _ rest)

theorem buildColMap_head (c0 : String) (rest : List String) (hnd : (c0 :: rest).Nodup) :
    dlookup (dictOf (buildColMap (c0 :: rest))) c0 = some "date" := by
  rw [dictOf_dlookup _ (nodup_keysOf_buildColMap c0 rest hnd)]
  simp [buildColMap, dlookup]

theorem buildColMap_rest (c0 : String) (rest : List String) (hnd : (c0 :: rest).Nodup)
    (c : String) (hc : c ∈ rest) :
    dlookup (dictOf (buildColMap (c0 :: rest))) c = colCanonical c := by
  rw [dictOf_dlookup _ (nodup_keysOf_buildColMap c0 rest hnd)]
  rcases List.nodup_cons.mp hnd with ⟨h0, hndr⟩
  have hc0 : ¬ c0 = c := fun hh => h0 (hh ▸ hc)
  rw [show buildColMap (c0 :: rest)
        = (c0, "date") :: rest.filterMap (fun c => (colCanonical c).map (fun k => (c, k)))
      from rfl]
  simp only [dlookup, if_neg hc0]
  exact dlookup_filterMap_pair _ rest hndr c hc

theorem colCanonical_char (c : String) :
    (colCanonical c = some "firm" ↔ pyNorm c = "firm") ∧
    (colCanonical c = some "to_grade"
      ↔ pyNorm c ≠ "firm"
          ∧ containsSub (pyReplaceChar '\n' ' ' (pyNorm c)) "to grade" = true) ∧
    (colCanonical c = some "from_grade"
      ↔ pyNorm c ≠ "firm"
          ∧ containsSub (pyReplaceChar '\n' ' ' (pyNorm c)) "to grade" = false
          ∧ containsSub (pyReplaceChar '\n' ' ' (pyNorm c)) "from grade" = true) ∧
    (colCanonical c = none
      ↔ pyNorm c ≠ "firm"
          ∧ containsSub (pyReplaceChar '\n' ' ' (pyNorm c)) "to grade" = false
          ∧ containsSub (pyReplaceChar '\n' ' ' (pyNorm c)) "from grade" = false) := by
  unfold colCanonical
  by_cases h1 : pyNorm c = "firm"
  · simp [h1]
  · by_cases h2 : containsSub (pyReplaceChar '\n' ' ' (pyNorm c)) "to grade" = true
    · simp [h1, h2]
    · by_cases h3 : containsSub (pyReplaceChar '\n' ' ' (pyNorm c)) "from grade" = true
      · simp [h1, h2, h3]
      · simp [h1, h2, h3]

theorem newColsOf_eq (df : DataFrame) (hnd : (df.indexName :: df.columns).Nodup) :
    newColsOf df = "date" :: df.columns.map (fun c => (colCanonical c).getD c) := by
  unfold newColsOf renameCols
  rw [show df.resetIndex.columns = df.indexName :: df.columns from rfl]
  rw [List.map_cons]
  congr 1
  · rw [buildColMap_head _ _ hnd]
    rfl
  · apply List.map_congr_left
    intro c hc
    rw [buildColMap_rest _ _ hnd c hc]

theorem colCanonical_some_cases (c k : String) (h : colCanonical c = some k) :
    k = "firm" ∨ k = "to_grade" ∨ k = "from_grade" := by
  unfold colCanonical at h
  split at h
  · exact Or.inl (Option.some.inj h).symm
  · split at h
    · exact Or.inr (Or.inl (Option.some.inj h).symm)
    · split at h
      · exact Or.inr (Or.inr (Option.some.inj h).symm)
      · cases h

/-! ## Claim theorems -/

/-- Claim C6 (confirmed): for a batch request whose `symbols` query parameter
is empty or splits into only whitespace entries, both batch endpoints answer
HTTP 400 with detail `No symbols provided`, and they do so for every possible
provider, so no per-symbol fetch is invoked. -/
theorem c6_empty_symbols_400 (symbols : String)
    (h : ∀ g ∈ splitOnChar ',' symbols.data, pyStrip ⟨g⟩ = "") :
    (∀ (I : Type) (tickers : String → Option (Except String I)),
        getQuotes tickers symbols = .httpError 400 "No symbols provided") ∧
    (∀ recsOf : String → Except String (Option DataFrame),
        getRecommendations recsOf symbols = .httpError 400 "No symbols provided") := by
  have hp : parseSymbols symbols = [] := by
    unfold parseSymbols
    rw [List.filter_eq_nil_iff]
    intro a ha
    rw [List.mem_map] at ha
    obtain ⟨b, hb, hEq⟩ := ha
    rw [← hEq, h b hb]
    decide
  constructor
  · intro I tickers
    unfold getQuotes
    simp [hp]
  · intro recsOf
    unfold getRecommendations
    simp [hp]

theorem c6_witness :
    (∀ g ∈ splitOnChar ',' (" , ,").data, pyStrip ⟨g⟩ = "") ∧
    ((∀ (I : Type) (tickers : String → Option (Except String I)),
        getQuotes tickers " , ," = .httpError 400 "No symbols provided") ∧
     (∀ recsOf : String → Except String (Option DataFrame),
        getRecommendations recsOf " , ," = .httpError 400 "No symbols provided")) :=
  ⟨by decide, c6_empty_symbols_400 " , ," (by decide)⟩

/-- Claim C7 (confirmed): a request whose X-API-KEY header is missing or does
not equal the configured key is answered 403 on every route, for every
provider, so no upstream fetch occurs. -/
theorem c7_auth_403 (serverKey header : Option String)
    (h : header = none ∨ ∃ k, header = some k ∧ serverKey ≠ some k) :
    ∀ (I : Type) (p : Provider I) (r : Route),
      handle p serverKey header r = .httpError 403 (authDetail header) := by
  intro I p r
  rcases h with rfl | ⟨k, rfl, hk⟩
  · rfl
  · unfold handle verifyApiKey authDetail
    simp [hk]

theorem c7_witness :
    ((some "wrong" : Option String) = none
      ∨ ∃ k, (some "wrong" : Option String) = some k
          ∧ (some "secret" : Option String) ≠ some k) ∧
    handle exProv (some "secret") (some "wrong") .root
      = .httpError 403 (authDetail (some "wrong")) :=
  ⟨Or.inr ⟨"wrong", rfl, by decide⟩,
   c7_auth_403 (some "secret") (some "wrong") (Or.inr ⟨"wrong", rfl, by decide⟩)
     Nat exProv .root⟩

/-- Claim C9 (confirmed): when the API_KEY environment variable is unset, the
held key is `none` and every request on every route is rejected 403, whatever
header value the client supplies. -/
theorem c9_unset_key_403 :
    ∀ (I : Type) (p : Provider I) (header : Option String) (r : Route),
      handle p none header r = .httpError 403 (authDetail header) := by
  intro I p header r
  cases header with
  | none => rfl
  | some k => rfl

/-- Claim C4 (confirmed): a table that reaches column reconciliation (pandas
`empty` is false) and is missing a required canonical key after renaming
makes `recs_to_records` fail with the message naming the missing keys, and
`get_recommendations` surfaces such a failure as that symbol's error
descriptor. -/
theorem c4_missing_column_error :
    (∀ df : DataFrame, df.isEmptyDf = false → missingOf df ≠ [] →
        recsToRecords (some df) = .error (missingMsg (missingOf df))) ∧
    (∀ (recsOf : String → Except String (Option DataFrame)) (symbols s : String)
        (recs : Option DataFrame) (msg : String),
        s ∈ parseSymbols symbols → recsOf s = .ok recs →
        recsToRecords recs = .error msg →
        ∃ m, getRecommendations recsOf symbols = .ok m
          ∧ dlookup m s = some (.error msg)) := by
  constructor
  · intro df hne hmiss
    exact recsToRecords_error_char df hne hmiss
  · intro recsOf symbols s recs msg hs hok herr
    have hnil : parseSymbols symbols ≠ [] := by
      intro hh
      rw [hh] at hs
      simp at hs
    refine ⟨_, getRecommendations_char recsOf symbols hnil, ?_⟩
    rw [foldl_dictUpdate_dlookup]
    simp only [hs, if_pos]
    simp [recEntry, hok, herr]

theorem c4_witness :
    (exDfMissing.isEmptyDf = false ∧ missingOf exDfMissing ≠ [] ∧
      recsToRecords (some exDfMissing) = .error (missingMsg (missingOf exDfMissing))) ∧
    ("A" ∈ parseSymbols "A" ∧
      ∃ m, getRecommendations exRecsMissing "A" = .ok m
        ∧ dlookup m "A" = some (.error (missingMsg (missingOf exDfMissing)))) :=
  ⟨⟨by decide, by decide,
    c4_missing_column_error.1 exDfMissing (by decide) (by decide)⟩,
   ⟨by decide,
    c4_missing_column_error.2 exRecsMissing "A" "A" (some exDfMissing)
      (missingMsg (missingOf exDfMissing)) (by decide) rfl rfl⟩⟩

/-- Claim C10 (confirmed): in the batch quotes endpoint, a requested symbol
absent from the provider's tickers collection is mapped to the fixed
descriptor `error: Ticker not found` instead of raising or being omitted;
stated for batches where no present sibling ticker's `info` raises, since
such a raise aborts the whole request (see claim C1). -/
theorem c10_absent_ticker (I : Type) (tickers : String → Option (Except String I))
    (symbols s : String) (hs : s ∈ parseSymbols symbols) (habs : tickers s = none)
    (H : ∀ t ∈ parseSymbols symbols, ∀ e, tickers t ≠ some (.error e)) :
    ∃ m, getQuotes tickers symbols = .ok m
      ∧ dlookup m s = some (.error "Ticker not found") := by
  have hnil : parseSymbols symbols ≠ [] := by
    intro hh
    rw [hh] at hs
    simp at hs
  refine ⟨_, getQuotes_char tickers symbols hnil H, ?_⟩
  rw [foldl_dictUpdate_dlookup]
  simp only [hs, if_pos]
  simp [qEntry, habs]

theorem c10_witness :
    ("B" ∈ parseSymbols "A,B" ∧ exTickersA "B" = none ∧
      (∀ t ∈ parseSymbols "A,B", ∀ e, exTickersA t ≠ some (.error e))) ∧
    (∃ m, getQuotes exTickersA "A,B" = .ok m
      ∧ dlookup m "B" = some (.error "Ticker not found")) := by
  have hH : ∀ t ∈ parseSymbols "A,B", ∀ e, exTickersA t ≠ some (.error e) := by
    intro t ht e
    rw [show parseSymbols "A,B" = ["A", "B"] from rfl] at ht
    rcases List.mem_cons.mp ht with rfl | ht2
    · simp [exTickersA]
    · rcases List.mem_cons.mp ht2 with rfl | ht3
      · simp [exTickersA]
      · simp at ht3
  exact ⟨⟨by decide, rfl, hH⟩,
    c10_absent_ticker Nat exTickersA "A,B" "B" (by decide) rfl hH⟩

/-- Claim C5 (confirmed): for a non-empty table whose columns reconcile to
the canonical schema (with distinct renamed labels, matching pandas label
selection), the normalizer emits one record per source row, in source order
(the i-th record is drawn from the i-th reset row), each record carrying
exactly the canonical keys with values taken from that row. -/
theorem c5_records_shape (df : DataFrame)
    (hrows : df.rows ≠ [])
    (hwf : ∀ r ∈ df.rows, r.2.length = df.columns.length)
    (hnd : (newColsOf df).Nodup)
    (hmiss : missingOf df = []) :
    ∃ recs, recsToRecords (some df) = .ok recs ∧
      recs.length = df.rows.length ∧
      (∀ rec ∈ recs, rec.map Prod.fst = required) ∧
      (∀ (i : Nat) (rec : List (String × Value)), recs[i]? = some rec →
        ∃ row : List Value, df.resetIndex.rows[i]? = some row ∧
          ∀ k v, (k, v) ∈ rec →
            ∃ j, colIdx (newColsOf df) k = some j ∧ row[j]? = some v) := by
  have hne := isEmptyDf_false_of df hrows hmiss
  refine ⟨_, recsToRecords_ok_char df hne hmiss, ?_, ?_, ?_⟩
  · rw [List.length_map, resetIndex_rows_length]
  · intro rec hrec
    rw [List.mem_map] at hrec
    obtain ⟨row, hrow, hEq⟩ := hrec
    rw [← hEq]
    apply recordOf_keys
    intro k hk
    exact sel_total _ _ (resetIndex_row_length df hwf row hrow) k
      (required_mem_of_missing_nil df hmiss k hk)
  · intro i rec hrec
    rw [List.getElem?_map] at hrec
    cases hri : df.resetIndex.rows[i]? with
    | none => rw [hri] at hrec; simp at hrec
    | some row =>
      rw [hri] at hrec
      simp at hrec
      refine ⟨row, rfl, ?_⟩
      intro k v hkv
      rw [← hrec] at hkv
      obtain ⟨_, j, hj, hv⟩ := mem_recordOf _ _ _ _ hkv
      exact ⟨j, hj, hv⟩

theorem c5_witness :
    (exDfFull.rows ≠ [] ∧ (∀ r ∈ exDfFull.rows, r.2.length = exDfFull.columns.length) ∧
      (newColsOf exDfFull).Nodup ∧ missingOf exDfFull = []) ∧
    (∃ recs, recsToRecords (some exDfFull) = .ok recs ∧
      recs.length = exDfFull.rows.length ∧
      (∀ rec ∈ recs, rec.map Prod.fst = required) ∧
      (∀ (i : Nat) (rec : List (String × Value)), recs[i]? = some rec →
        ∃ row : List Value, exDfFull.resetIndex.rows[i]? = some row ∧
          ∀ k v, (k, v) ∈ rec →
            ∃ j, colIdx (newColsOf exDfFull) k = some j ∧ row[j]? = some v)) :=
  ⟨⟨by decide, by decide, by decide, by decide⟩,
   c5_records_shape exDfFull (by decide) (by decide) (by decide) (by decide)⟩

/-- Claim C8 (confirmed): for every valid batch request the response maps
exactly the distinct trimmed non-empty symbols: keys carry no duplicates, a
symbol is a key exactly when requested, and each requested symbol maps to
the entry computed for it, so duplicate requests collapse to that single
entry rather than multiplying entries or failing. -/
theorem c8_keys_distinct_symbols :
    (∀ (recsOf : String → Except String (Option DataFrame)) (symbols : String),
        parseSymbols symbols ≠ [] →
        ∃ m, getRecommendations recsOf symbols = .ok m ∧
          (keysOf m).Nodup ∧
          (∀ s, s ∈ keysOf m ↔ s ∈ parseSymbols symbols) ∧
          (∀ s ∈ parseSymbols symbols, dlookup m s = some (recEntry recsOf s))) ∧
    (∀ (I : Type) (tickers : String → Option (Except String I)) (symbols : String)
        (m : List (String × BatchEntry I)),
        getQuotes tickers symbols = .ok m →
        (keysOf m).Nodup ∧
        (∀ s, s ∈ keysOf m ↔ s ∈ parseSymbols symbols) ∧
        (∀ s ∈ parseSymbols symbols, dlookup m s = some (qEntry tickers s))) := by
  constructor
  · intro recsOf symbols hnil
    refine ⟨_, getRecommendations_char recsOf symbols hnil, ?_, ?_, ?_⟩
    · exact nodup_keysOf_foldl _ _ _ (by simp [keysOf])
    · intro s
      rw [mem_keysOf_foldl]
      simp [keysOf]
    · intro s hs
      rw [foldl_dictUpdate_dlookup]
      simp [hs]
  · intro I tickers symbols m hm
    obtain ⟨hnil, H, hmeq⟩ := getQuotes_ok_inv tickers symbols m hm
    subst hmeq
    refine ⟨?_, ?_, ?_⟩
    · exact nodup_keysOf_foldl _ _ _ (by simp [keysOf])
    · intro s
      rw [mem_keysOf_foldl]
      simp [keysOf]
    · intro s hs
      rw [foldl_dictUpdate_dlookup]
      simp [hs]

theorem c8_witness :
    parseSymbols "A,B,A" ≠ [] ∧
    (∃ m, getRecommendations exRecsDown "A,B,A" = .ok m ∧
      (keysOf m).Nodup ∧
      (∀ s, s ∈ keysOf m ↔ s ∈ parseSymbols "A,B,A") ∧
      (∀ s ∈ parseSymbols "A,B,A", dlookup m s = some (recEntry exRecsDown s))) :=
  ⟨by decide, c8_keys_distinct_symbols.1 exRecsDown "A,B,A" (by decide)⟩

/-- Claim C1 (refuted as stated): in the batch quotes endpoint, a raised
per-symbol `info` aborts the whole request with HTTP 500 instead of being
recorded as that symbol's error entry, even though the sibling symbol would
have succeeded (there is no try/except around the loop in `get_quotes`). -/
theorem c1_counterexample :
    exTickersRaise "A" = some (.ok 7) ∧
    exTickersRaise "B" = some (.error "boom") ∧
    parseSymbols "A,B" = ["A", "B"] ∧
    getQuotes exTickersRaise "A,B" = .httpError 500 "Internal Server Error" :=
  ⟨rfl, rfl, rfl, rfl⟩

/-- Claim C1 (amended): per-symbol failure isolation holds fully for the
batch recommendations endpoint — exactly one entry per requested symbol,
successes unwrapped, fetch or normalization failures as error descriptors.
For the batch quotes endpoint it holds only in the weaker form: when no
present ticker's `info` raises, absent tickers map to the fixed error
descriptor and present ones to their info payload; a raised `info` aborts
the whole request (see the counterexample). -/
theorem c1_amended_isolation :
    (∀ (recsOf : String → Except String (Option DataFrame)) (symbols : String),
        parseSymbols symbols ≠ [] →
        ∃ m, getRecommendations recsOf symbols = .ok m ∧
          (keysOf m).Nodup ∧
          (∀ s, s ∈ keysOf m ↔ s ∈ parseSymbols symbols) ∧
          (∀ s ∈ parseSymbols symbols,
            (∀ e, recsOf s = .error e → dlookup m s = some (.error e)) ∧
            (∀ recs rows, recsOf s = .ok recs → recsToRecords recs = .ok rows →
                dlookup m s = some (.payload rows)) ∧
            (∀ recs msg, recsOf s = .ok recs → recsToRecords recs = .error msg →
                dlookup m s = some (.error msg)))) ∧
    (∀ (I : Type) (tickers : String → Option (Except String I)) (symbols : String),
        parseSymbols symbols ≠ [] →
        (∀ s ∈ parseSymbols symbols, ∀ e, tickers s ≠ some (.error e)) →
        ∃ m, getQuotes tickers symbols = .ok m ∧
          (keysOf m).Nodup ∧
          (∀ s, s ∈ keysOf m ↔ s ∈ parseSymbols symbols) ∧
          (∀ s ∈ parseSymbols symbols,
            (∀ i, tickers s = some (.ok i) → dlookup m s = some (.payload i)) ∧
            (tickers s = none → dlookup m s = some (.error "Ticker not found")))) := by
  constructor
  · intro recsOf symbols hnil
    refine ⟨_, getRecommendations_char recsOf symbols hnil,
      nodup_keysOf_foldl _ _ _ (by simp [keysOf]), ?_, ?_⟩
    · intro s
      rw [mem_keysOf_foldl]
      simp [keysOf]
    · intro s hs
      refine ⟨?_, ?_, ?_⟩
      · intro e he
        rw [foldl_dictUpdate_dlookup]
        simp [hs, recEntry, he]
      · intro recs rows h1 h2
        rw [foldl_dictUpdate_dlookup]
        simp [hs, recEntry, h1, h2]
      · intro recs msg h1 h2
        rw [foldl_dictUpdate_dlookup]
        simp [hs, recEntry, h1, h2]
  · intro I tickers symbols hnil H
    refine ⟨_, getQuotes_char tickers symbols hnil H,
      nodup_keysOf_foldl _ _ _ (by simp [keysOf]), ?_, ?_⟩
    · intro s
      rw [mem_keysOf_foldl]
      simp [keysOf]
    · intro s hs
      refine ⟨?_, ?_⟩
      · intro i hi
        rw [foldl_dictUpdate_dlookup]
        simp [hs, qEntry, hi]
      · intro habs
        rw [foldl_dictUpdate_dlookup]
        simp [hs, qEntry, habs]

theorem c1_witness :
    parseSymbols "A,B" ≠ [] ∧
    (∃ m, getRecommendations exRecsRaise "A,B" = .ok m ∧
      (keysOf m).Nodup ∧
      (∀ s, s ∈ keysOf m ↔ s ∈ parseSymbols "A,B") ∧
      (∀ s ∈ parseSymbols "A,B",
        (∀ e, exRecsRaise s = .error e → dlookup m s = some (.error e)) ∧
        (∀ recs rows, exRecsRaise s = .ok recs → recsToRecords recs = .ok rows →
            dlookup m s = some (.payload rows)) ∧
        (∀ recs msg, exRecsRaise s = .ok recs → recsToRecords recs = .error msg →
            dlookup m s = some (.error msg)))) :=
  ⟨by decide, c1_amended_isolation.1 exRecsRaise "A,B" (by decide)⟩

/-- Claim C2 (refuted as stated): the column named Analyst To Grade is not
equal, under case/underscore/whitespace normalization, to the canonical key
`to_grade` (its normalized form is analyst to grade), yet the code maps it
to `to_grade`: matching for the grade keys is substring containment, not
equality, so this column's cell lands under `to_grade` in the output. -/
theorem c2_counterexample :
    pyNorm "Analyst To Grade" ≠ "to grade" ∧
    pyNorm "Analyst To Grade" ≠ "to_grade" ∧
    colCanonical "Analyst To Grade" = some "to_grade" ∧
    recsToRecords (some exDfContains)
      = .ok [[("date", Value.num 0), ("firm", Value.str "MS"),
              ("to_grade", Value.str "Buy"), ("from_grade", Value.str "Hold")]] :=
  ⟨by decide, by decide, rfl, rfl⟩

/-- Claim C2 (amended): the leading/index column is always renamed `date`;
a remaining column is renamed `firm` exactly when its normalized name equals
firm, but it is renamed `to_grade` (resp. `from_grade`) exactly when its
normalized name, with newlines read as spaces, contains the phrase to grade
as a substring (resp. contains from grade and not to grade) — containment
with if/elif priority, not whole-name equality. -/
theorem c2_amended_mapping (df : DataFrame)
    (hnd : (df.indexName :: df.columns).Nodup) :
    newColsOf df = "date" :: df.columns.map (fun c => (colCanonical c).getD c) ∧
    ∀ c ∈ df.columns,
      (((colCanonical c).getD c = "firm") ↔ pyNorm c = "firm") ∧
      (((colCanonical c).getD c = "to_grade")
        ↔ pyNorm c ≠ "firm"
            ∧ containsSub (pyReplaceChar '\n' ' ' (pyNorm c)) "to grade" = true) ∧
      (((colCanonical c).getD c = "from_grade")
        ↔ pyNorm c ≠ "firm"
            ∧ containsSub (pyReplaceChar '\n' ' ' (pyNorm c)) "to grade" = false
            ∧ containsSub (pyReplaceChar '\n' ' ' (pyNorm c)) "from grade" = true) := by
  refine ⟨newColsOf_eq df hnd, ?_⟩
  intro c _
  obtain ⟨h1, h2, h3, h4⟩ := colCanonical_char c
  cases hcc : colCanonical c with
  | none =>
    obtain ⟨hn1, hn2, hn3⟩ := h4.mp hcc
    simp only [Option.getD_none]
    refine ⟨⟨fun hcf => ?_, fun hpf => absurd hpf hn1⟩,
            ⟨fun hct => ?_, fun hpt => ?_⟩,
            ⟨fun hcf2 => ?_, fun hpf2 => ?_⟩⟩
    · subst hcf
      exact absurd (by decide : pyNorm "firm" = "firm") hn1
    · subst hct
      rw [(by decide : containsSub (pyReplaceChar '\n' ' ' (pyNorm "to_grade"))
            "to grade" = true)] at hn2
      exact absurd hn2 (by decide)
    · exact absurd hpt.2 (by rw [hn2]; decide)
    · subst hcf2
      rw [(by decide : containsSub (pyReplaceChar '\n' ' ' (pyNorm "from_grade"))
            "from grade" = true)] at hn3
      exact absurd hn3 (by decide)
    · exact absurd hpf2.2.2 (by rw [hn3]; decide)
  | some k =>
    simp only [Option.getD_some]
    rcases colCanonical_some_cases c k hcc with rfl | rfl | rfl
    · have hp := h1.mp hcc
      exact ⟨⟨fun _ => hp, fun _ => rfl⟩,
             ⟨fun hk => absurd hk (by decide), fun hr => absurd hp hr.1⟩,
             ⟨fun hk => absurd hk (by decide), fun hr => absurd hp hr.1⟩⟩
    · obtain ⟨hp, hq⟩ := h2.mp hcc
      exact ⟨⟨fun hk => absurd hk (by decide), fun hr => absurd hr hp⟩,
             ⟨fun _ => ⟨hp, hq⟩, fun _ => rfl⟩,
             ⟨fun hk => absurd hk (by decide),
              fun hr => absurd hq (by rw [hr.2.1]; decide)⟩⟩
    · obtain ⟨hp, hq1, hq2⟩ := h3.mp hcc
      exact ⟨⟨fun hk => absurd hk (by decide), fun hr => absurd hr hp⟩,
             ⟨fun hk => absurd hk (by decide),
              fun hr => absurd hr.2 (by rw [hq1]; decide)⟩,
             ⟨fun _ => ⟨hp, hq1, hq2⟩, fun _ => rfl⟩⟩

theorem c2_witness :
    (exDfHeader.indexName :: exDfHeader.columns).Nodup ∧
    (newColsOf exDfHeader
        = "date" :: exDfHeader.columns.map (fun c => (colCanonical c).getD c) ∧
      ∀ c ∈ exDfHeader.columns,
        (((colCanonical c).getD c = "firm") ↔ pyNorm c = "firm") ∧
        (((colCanonical c).getD c = "to_grade")
          ↔ pyNorm c ≠ "firm"
              ∧ containsSub (pyReplaceChar '\n' ' ' (pyNorm c)) "to grade" = true) ∧
        (((colCanonical c).getD c = "from_grade")
          ↔ pyNorm c ≠ "firm"
              ∧ containsSub (pyReplaceChar '\n' ' ' (pyNorm c)) "to grade" = false
              ∧ containsSub (pyReplaceChar '\n' ' ' (pyNorm c)) "from grade" = true)) :=
  ⟨by decide, c2_amended_mapping exDfHeader (by decide)⟩

/-- Claim C3 (refuted as stated): a NaN sentinel cell is not converted to an
explicit null — `to_dict` passes it through as NaN (the key is present, but
the value keeps the sentinel type). -/
theorem c3_counterexample :
    recsToRecords (some exDfNan)
      = .ok [[("date", Value.num 0), ("firm", Value.str "MS"),
              ("to_grade", Value.nan), ("from_grade", Value.str "Hold")]] ∧
    Value.nan ≠ Value.null :=
  ⟨rfl, by decide⟩

/-- Claim C3 (amended): a sentinel cell is carried into the output record
unchanged — the canonical key is present (never omitted) and its value is
the NaN sentinel itself, not an explicit null. -/
theorem c3_amended_passthrough (df : DataFrame)
    (hwf : ∀ r ∈ df.rows, r.2.length = df.columns.length)
    (hnd : (newColsOf df).Nodup)
    (hmiss : missingOf df = []) (hne : df.isEmptyDf = false)
    (i j : Nat) (k : String) (row : List Value)
    (hk : k ∈ required) (hj : (newColsOf df)[j]? = some k)
    (hrow : df.resetIndex.rows[i]? = some row) (hcell : row[j]? = some Value.nan) :
    ∃ recs rec, recsToRecords (some df) = .ok recs ∧ recs[i]? = some rec ∧
      rec.map Prod.fst = required ∧ (k, Value.nan) ∈ rec := by
  refine ⟨_, recordOf (newColsOf df) row, recsToRecords_ok_char df hne hmiss, ?_, ?_, ?_⟩
  · rw [List.getElem?_map, hrow]
    rfl
  · apply recordOf_keys
    intro k2 hk2
    exact sel_total _ _ (resetIndex_row_length df hwf row (mem_of_getElemOpt _ _ _ hrow))
      k2 (required_mem_of_missing_nil df hmiss k2 hk2)
  · exact recordOf_mem_of _ _ _ _ j hk (colIdx_of_nodup _ hnd j k hj) hcell

theorem c3_witness :
    ((∀ r ∈ exDfNan.rows, r.2.length = exDfNan.columns.length) ∧
      (newColsOf exDfNan).Nodup ∧ missingOf exDfNan = [] ∧
      exDfNan.isEmptyDf = false ∧ "to_grade" ∈ required ∧
      (newColsOf exDfNan)[2]? = some "to_grade" ∧
      exDfNan.resetIndex.rows[0]?
        = some [Value.num 0, Value.str "MS", Value.nan, Value.str "Hold"] ∧
      ([Value.num 0, Value.str "MS", Value.nan, Value.str "Hold"] : List Value)[2]?
        = some Value.nan) ∧
    (∃ recs rec, recsToRecords (some exDfNan) = .ok recs ∧ recs[0]? = some rec ∧
      rec.map Prod.fst = required ∧ ("to_grade", Value.nan) ∈ rec) :=
  ⟨⟨by decide, by decide, by decide, by decide, by decide, by decide, rfl, rfl⟩,
   c3_amended_passthrough exDfNan (by decide) (by decide) (by decide) (by decide)
     0 2 "to_grade" [Value.num 0, Value.str "MS", Value.nan, Value.str "Hold"]
     (by decide) (by decide) rfl rfl⟩

end YFin
